import Mathlib

/-!
Verification development for the mcp-pgvector-server repository
(`src/index.js`, a PostgreSQL/pgvector MCP server).

The development is a shallow embedding of the server's core logic:

* the embedding-provider selection and the Hugging Face response
  normalization (`generateEmbedding`, `generateHuggingFaceEmbedding`);
* the schema inspector (`getEmbeddingColumnName`, `getTableSchemas`);
* the query engine (`vectorSearch`, `metadataSearch`, `insertDocument`,
  `getDatabaseStats`): both the SQL text / bound-parameter construction
  and the relational semantics of the generated statements (modelled as
  pure functions over lists of rows, with the pgvector distance operator
  kept abstract as a parameter);
* the tool dispatcher (`ListToolsRequestSchema` and
  `CallToolRequestSchema` handlers), including the JavaScript falsy
  argument defaulting (`args.limit || 5`) and the blanket
  `try`/`catch` that re-wraps every thrown error;
* the connection-lifecycle discipline, modelled as event traces
  (acquire / release / embedding call / SQL execution) produced by each
  operation, with the outcomes of the external calls (embedding backend,
  SQL statements) supplied as oracle parameters.

Machine floats of the source are modelled as rationals; the database and
the embedding backends are external, so their answers enter as explicit
oracle arguments of type `Except`.
-/

namespace McpPgvector

/-! ## Character and string utilities -/

/-- Boolean prefix test on character lists (used to express SQL
substring containment). -/
def chListPrefix : List Char → List Char → Bool
  | [], _ => true
  | _ :: _, [] => false
  | a :: as, b :: bs => (a = b) && chListPrefix as bs

/-- Boolean substring containment on character lists: `need` occurs
inside `hay`. -/
def chContains (hay need : List Char) : Bool :=
  hay.tails.any (fun t => chListPrefix need t)

/-- Substring containment on strings.  This is the semantics of the SQL
predicate `x LIKE '%lit%'` for a literal `lit` that contains no LIKE
metacharacter, as used in the catalog queries of `src/index.js`
(`column_name LIKE '%embedding%'`) and in `row.column_name.includes('embedding')`. -/
def strContains (s sub : String) : Bool := chContains s.toList sub.toList

/-- Character-list image of a string under SQL case folding.  Models the
case-insensitivity of `ILIKE`. -/
def lowerL (s : String) : List Char := s.toList.map Char.toLower

/-- Case-insensitive substring containment: the reading of the spec
sentence "the metadata value case-insensitively contains the filter's
value as a substring". -/
def specContainsCI (hay need : String) : Bool :=
  chContains (lowerL hay) (lowerL need)

/-- The single-quote character, used when assembling SQL text. -/
def sqlQuote : String := String.singleton (Char.ofNat 39)

/-! ## SQL LIKE / ILIKE pattern semantics

`metadataSearch` sends `metadata ->> 'key' ILIKE $n` with the bound
parameter `'%' + value + '%'`.  The database evaluates the parameter as
a LIKE pattern: `%` matches any sequence, `_` matches any single
character, and backslash escapes the following character.  `ILIKE` is
the case-folded variant. -/

/-- Whether some suffix of the subject satisfies `f`; realises the
any-sequence semantics of the `%` wildcard. -/
def anySuffix (f : List Char → Bool) : List Char → Bool
  | [] => f []
  | c :: cs => f (c :: cs) || anySuffix f cs

/-- SQL LIKE pattern matching over character lists: first argument is
the pattern, second the subject.  `%` matches any sequence, `_` any
single character, backslash escapes the following character. -/
def likeMatch : List Char → List Char → Bool
  | [], s => s.isEmpty
  | p :: ps, s =>
    if p = '%' then
      anySuffix (likeMatch ps) s
    else if p = '\\' then
      (match ps, s with
       | q :: qs, c :: cs => (q = c) && likeMatch qs cs
       | _, _ => false)
    else
      (match s with
       | [] => false
       | c :: cs => (if p = '_' then true else p = c) && likeMatch ps cs)

/-- Case-insensitive LIKE: both pattern and subject are case folded, as
`ILIKE` does. -/
def ilike (pat s : String) : Bool := likeMatch (lowerL pat) (lowerL s)

/-- A character is a LIKE metacharacter when it is `%`, `_` or the
escape character backslash. -/
def isLikeMeta (c : Char) : Bool := c = '%' || c = '_' || c = '\\'

/-- A character list is wildcard-free when it holds no LIKE
metacharacter. -/
def noLikeMeta (cs : List Char) : Bool := cs.all (fun c => !(isLikeMeta c))

/-! ## Data model

`Row` is the document row shape selected by `vectorSearch` and
`metadataSearch` (`id, content, metadata, created_at`, plus the
embedding vector used by the distance operator).  Metadata is a string
keyed map whose text extraction `metadata ->> key` yields an optional
string. -/

structure Row where
  id : Nat
  content : String
  metadata : List (String × String)
  embedding : List ℚ
  created_at : Nat
deriving DecidableEq

/-- JSON text extraction `metadata ->> key`: the first binding of the
key, or SQL NULL (`none`). -/
def lookupMeta (m : List (String × String)) (key : String) : Option String :=
  (m.find? (fun kv => kv.1 == key)).map Prod.snd

/-! ## Embedding column resolution (`getEmbeddingColumnName`)

The source issues one catalog query per call:

  SELECT column_name FROM information_schema.columns
  WHERE table_name = $1 AND table_schema = 'public'
  AND (column_name LIKE '%embedding%' OR data_type = 'USER-DEFINED')
  ORDER BY CASE WHEN column_name = 'embedding' THEN 1
                WHEN column_name = 'content_embedding' THEN 2
                ELSE 3 END
  LIMIT 1

and returns `result.rows[0]?.column_name || 'embedding'`.  The catalog
is modelled as the list of the table's columns; the stable `mergeSort`
realises the `ORDER BY` (ties keep catalog order). -/

structure ColumnDef where
  column_name : String
  data_type : String
deriving DecidableEq

/-- The WHERE filter of the catalog query: name contains `embedding`,
or the declared type is the vector extension's user-defined type. -/
def isEmbeddingCandidate (c : ColumnDef) : Bool :=
  strContains c.column_name "embedding" || c.data_type == "USER-DEFINED"

/-- The ORDER BY key of the catalog query. -/
def embeddingRank (name : String) : Nat :=
  if name = "embedding" then 1 else if name = "content_embedding" then 2 else 3

/-- Rank comparison used to order the candidate columns. -/
def rankLe (a b : ColumnDef) : Bool :=
  embeddingRank a.column_name ≤ embeddingRank b.column_name

/-- `getEmbeddingColumnName` of `src/index.js`, as a pure function of
the table's catalog columns.  The trailing JavaScript
`|| 'embedding'` also replaces a falsy (empty) column name. -/
def getEmbeddingColumnName (cols : List ColumnDef) : String :=
  match ((cols.filter isEmbeddingCandidate).mergeSort rankLe).head? with
  | Option.some c => if c.column_name = "" then "embedding" else c.column_name
  | Option.none => "embedding"

/-! ## Query engine: SQL statement construction

`vectorSearch` and `metadataSearch` assemble a statement string plus a
positional bound-parameter array.  The parameter array is modelled
exactly; statement strings are reproduced up to whitespace. -/

inductive SqlValue where
  | str (s : String)
  | num (q : ℚ)
deriving DecidableEq

/-- The pgvector text literal `'[' + embedding.join(',') + ']'` built
for the query embedding. -/
def vecLiteral (embedding : List ℚ) : String :=
  "[" ++ String.intercalate "," (embedding.map toString) ++ "]"

/-- The bound-parameter array of the `vectorSearch` statement
(`src/index.js` lines 236-240): the vector literal, then the
similarity threshold (`$2`) and the limit (`$3`) exactly as supplied —
the function applies no clamping. -/
def vectorSearchParams (queryEmbedding : List ℚ)
    (similarityThreshold lim : ℚ) : List SqlValue :=
  [SqlValue.str (vecLiteral queryEmbedding),
   SqlValue.num similarityThreshold,
   SqlValue.num lim]

/-- One conjunct of the `metadataSearch` WHERE clause:
`metadata ->> 'key' ILIKE $idx`.  Only the key is interpolated into the
text; the value travels as the bound parameter `$idx`. -/
def metadataCondition (key : String) (idx : Nat) : String :=
  "metadata ->> " ++ sqlQuote ++ key ++ sqlQuote ++ " ILIKE $" ++ toString idx

/-- The conjunct list for the given keys, numbering parameters from
`startIdx` (the source starts `paramCount` at 1). -/
def metadataConditions : List String → Nat → List String
  | [], _ => []
  | k :: ks, i => metadataCondition k i :: metadataConditions ks (i + 1)

/-- The WHERE clause: empty for zero filters, otherwise the AND-joined
conjuncts. -/
def metadataWhereClause (keys : List String) : String :=
  match keys with
  | [] => ""
  | _ => "WHERE " ++ String.intercalate " AND " (metadataConditions keys 1)

/-- The `metadataSearch` statement text (whitespace normalised).  It is
built from the table name and the filter keys only; the limit occupies
the final parameter slot. -/
def metadataSearchQueryText (table : String) (keys : List String) : String :=
  "SELECT id, content, metadata, created_at FROM " ++ table ++ " " ++
    metadataWhereClause keys ++ " ORDER BY created_at DESC LIMIT $" ++
    toString (keys.length + 1)

/-- The `metadataSearch` statement: text plus bound parameters.  Each
filter value is bound wrapped in `%` wildcards; the limit is the last
bound parameter. -/
def metadataSearchQuery (filters : List (String × String)) (table : String)
    (lim : ℚ) : String × List SqlValue :=
  (metadataSearchQueryText table (filters.map Prod.fst),
   filters.map (fun kv => SqlValue.str ("%" ++ kv.2 ++ "%")) ++
     [SqlValue.num lim])

/-! ## Query engine: relational semantics of the generated statements

The database is external; the semantics of the statements the engine
sends is modelled on explicit row lists.  The pgvector cosine-distance
operator `a <=> b` is kept abstract as the parameter `cosDist`. -/

/-- Ordering relation produced by `ORDER BY col <=> $1` for a fixed
query embedding. -/
def distLe (cosDist : List ℚ → List ℚ → ℚ) (q : List ℚ) (a b : Row) : Prop :=
  cosDist a.embedding q ≤ cosDist b.embedding q

instance (cosDist : List ℚ → List ℚ → ℚ) (q : List ℚ) :
    DecidableRel (distLe cosDist q) :=
  fun a b => inferInstanceAs (Decidable (_ ≤ _))

instance (cosDist : List ℚ → List ℚ → ℚ) (q : List ℚ) :
    IsTotal Row (distLe cosDist q) :=
  ⟨fun a b => le_total _ _⟩

instance (cosDist : List ℚ → List ℚ → ℚ) (q : List ℚ) :
    IsTrans Row (distLe cosDist q) :=
  ⟨fun _ _ _ hab hbc => le_trans hab hbc⟩

/-- Semantics of the `vectorSearch` statement

  SELECT ... , 1 - (col <=> $1::vector) AS similarity ...
  WHERE 1 - (col <=> $1::vector) > $2
  ORDER BY col <=> $1::vector
  LIMIT $3

over a row list: keep the rows whose similarity `1 - dist` strictly
exceeds the threshold, order by ascending distance, cap at the limit. -/
def vectorSearchModel (cosDist : List ℚ → List ℚ → ℚ) (queryEmbedding : List ℚ)
    (similarityThreshold : ℚ) (lim : Nat) (rows : List Row) : List Row :=
  ((rows.filter
      (fun r => similarityThreshold < 1 - cosDist r.embedding queryEmbedding)).insertionSort
    (distLe cosDist queryEmbedding)).take lim

/-- Ordering relation produced by `ORDER BY created_at DESC`. -/
def createdDesc (a b : Row) : Prop := b.created_at ≤ a.created_at

instance : DecidableRel createdDesc :=
  fun a b => inferInstanceAs (Decidable (_ ≤ _))

instance : IsTotal Row createdDesc := ⟨fun a b => le_total _ _⟩

instance : IsTrans Row createdDesc :=
  ⟨fun _ _ _ hab hbc => le_trans hbc hab⟩

/-- The row predicate of the `metadataSearch` WHERE clause: every filter
pair demands `metadata ->> key ILIKE '%value%'`; a NULL extraction
(absent key) fails the predicate, as in SQL. -/
def filterPredicate (filters : List (String × String)) (r : Row) : Bool :=
  filters.all (fun kv =>
    match lookupMeta r.metadata kv.1 with
    | Option.some v => ilike ("%" ++ kv.2 ++ "%") v
    | Option.none => false)

/-- Semantics of the `metadataSearch` statement over a row list: keep
the rows passing every ILIKE conjunct (all rows when there is no
filter), order by `created_at` descending, cap at the limit. -/
def metadataSearchModel (filters : List (String × String)) (lim : Nat)
    (rows : List Row) : List Row :=
  ((rows.filter (filterPredicate filters)).insertionSort createdDesc).take lim

/-! ## Embedding provider -/

inductive Provider where
  | azure
  | huggingface
  | none
deriving DecidableEq

/-- JavaScript runtime values as far as the Hugging Face
feature-extraction response is concerned: numbers, plain arrays
(possibly nested), and typed-array-like objects (`Float32Array`), which
are iterable flat float sequences but are not `Array`s. -/
inductive JsVal where
  | num (q : ℚ)
  | arr (elems : List JsVal)
  | typed (elems : List ℚ)

/-- `Array.isArray`. -/
def isArray : JsVal → Bool
  | JsVal.arr _ => true
  | _ => false

/-- `Array.from`: a typed array yields the plain array of its elements;
an array is copied as is; a non-iterable number yields `[]`. -/
def arrayFrom : JsVal → JsVal
  | JsVal.arr xs => JsVal.arr xs
  | JsVal.typed xs => JsVal.arr (xs.map JsVal.num)
  | JsVal.num _ => JsVal.arr []

/-- `generateHuggingFaceEmbedding` response handling
(`src/index.js` line 178):
`Array.isArray(response) ? response : Array.from(response)`. -/
def generateHuggingFaceEmbedding (response : JsVal) : JsVal :=
  if isArray response then response else arrayFrom response

/-- A value is a flat float vector when it is an array whose members are
all numbers. -/
def isFlatFloatVector : JsVal → Bool
  | JsVal.arr xs => xs.all (fun v => match v with
      | JsVal.num _ => true
      | _ => false)
  | _ => false

/-! ## Tool dispatcher: schemas, listing, argument defaulting -/

/-- The numeric-field fragment of a tool input schema: declared default
and bounds. -/
structure NumSchema where
  dflt : ℚ
  minimum : ℚ
  maximum : ℚ
deriving DecidableEq

/-- `vector_search` input schema, `limit` field. -/
def vector_search_limit_schema : NumSchema := ⟨5, 1, 50⟩

/-- `vector_search` input schema, `similarity_threshold` field. -/
def vector_search_threshold_schema : NumSchema := ⟨1/2, 0, 1⟩

/-- `metadata_search` input schema, `limit` field. -/
def metadata_search_limit_schema : NumSchema := ⟨10, 1, 100⟩

/-- The tool names returned by the `ListToolsRequestSchema` handler, in
push order: the two embedding-dependent tools only when the provider is
not `none`, then the always-available tools. -/
def listTools (p : Provider) : List String :=
  (if p ≠ Provider.none then ["vector_search", "insert_document"] else []) ++
    ["metadata_search", "get_database_stats", "get_table_schemas",
     "status_check"]

/-- JavaScript `v || d` on an optional numeric argument: an absent value
and the falsy number 0 both fall back to the default. -/
def jsOrNum (v : Option ℚ) (d : ℚ) : ℚ :=
  match v with
  | Option.none => d
  | Option.some x => if x = 0 then d else x

/-- Effective limit of a dispatched `vector_search`
(`args.limit || 5`). -/
def vectorSearchEffectiveLimit (v : Option ℚ) : ℚ := jsOrNum v 5

/-- Effective similarity threshold of a dispatched `vector_search`
(`args.similarity_threshold || 0.5`). -/
def vectorSearchEffectiveThreshold (v : Option ℚ) : ℚ := jsOrNum v (1/2)

/-- Effective limit of a dispatched `metadata_search`
(`args.limit || 10`). -/
def metadataSearchEffectiveLimit (v : Option ℚ) : ℚ := jsOrNum v 10

/-! ## Schema inspector (`getTableSchemas`)

The catalog join yields each base table with its column rows; per table the
source then runs a COUNT query and, per detected embedding column, a
vector-dimension sample query.  The two data-dependent queries appear
as oracle functions returning `Except`; the source's `try`/`catch`
blocks become the corresponding case splits. -/

structure RawColumn where
  column_name : String
  data_type : String
  is_nullable : String
  column_default : Option String
  udt_name : String
  character_maximum_length : Option Nat
deriving DecidableEq

structure RawTable where
  name : String
  columns : List RawColumn
deriving DecidableEq

/-- A recorded vector dimension: a sampled length, or the literal
`'unknown'` written by the sample-error handler. -/
inductive Dim where
  | known (n : Nat)
  | unknown
deriving DecidableEq

/-- The per-column record built by the grouping loop. -/
structure ColumnRec where
  name : String
  type : String
  nullable : Bool
  colDefault : Option String
  udtName : String
  maxLength : Option Nat
deriving DecidableEq

/-- The per-table descriptor built by `getTableSchemas`.
`vectorDimensions` is a partial map: a column can be absent. -/
structure TableDescriptor where
  name : String
  columns : List ColumnRec
  embeddingColumns : List String
  vectorDimensions : List (String × Dim)
  rowCount : Nat
deriving DecidableEq

/-- Column-record construction from a catalog row. -/
def toColumnRec (c : RawColumn) : ColumnRec :=
  ⟨c.column_name, c.data_type, c.is_nullable == "YES", c.column_default,
   c.udt_name, c.character_maximum_length⟩

/-- Embedding-column detection of the grouping loop:
`row.column_name.includes('embedding') && row.udt_name === 'vector'`. -/
def embeddingColumnsOf (t : RawTable) : List String :=
  (t.columns.filter
      (fun c => strContains c.column_name "embedding" &&
        c.udt_name == "vector")).map
    (fun c => c.column_name)

/-- The vector-dimension sampling loop for one table.  A failing sample
query (`catch`) records `'unknown'`; a succeeding query records the
dimension only when it is truthy (`if (sampleResult.rows[0]?.dimensions)`),
so a missing row (empty table) or a zero/NULL length records nothing. -/
def sampleDims (sampleQ : String → String → Except String (Option Nat))
    (tname : String) (cols : List String) : List (String × Dim) :=
  cols.filterMap (fun c =>
    match sampleQ tname c with
    | Except.error _ => Option.some (c, Dim.unknown)
    | Except.ok (Option.some d) =>
        if d = 0 then Option.none else Option.some (c, Dim.known d)
    | Except.ok Option.none => Option.none)

/-- The per-table phase of `getTableSchemas`: a failing COUNT query is
caught, zeroes the row count and skips the sampling loop; otherwise the
sampling loop runs (each sample failure caught individually). -/
def processTable (countQ : String → Except String Nat)
    (sampleQ : String → String → Except String (Option Nat))
    (t : RawTable) : TableDescriptor :=
  match countQ t.name with
  | Except.error _ =>
      ⟨t.name, t.columns.map toColumnRec, embeddingColumnsOf t, [], 0⟩
  | Except.ok n =>
      ⟨t.name, t.columns.map toColumnRec, embeddingColumnsOf t,
       sampleDims sampleQ t.name (embeddingColumnsOf t), n⟩

/-- `getTableSchemas` descriptor construction over the catalog's table
list: one descriptor per table, independent per-table error handling. -/
def getTableSchemas (countQ : String → Except String Nat)
    (sampleQ : String → String → Except String (Option Nat))
    (ts : List RawTable) : List TableDescriptor :=
  ts.map (processTable countQ sampleQ)

/-! ## Connection lifecycle and event traces

Every engine operation borrows a pooled client with
`const client = await pool.connect()` and pairs each borrow with
`client.release()` in a `finally` block.  Each operation is rendered as
the event trace it produces together with its outcome; the external
calls (embedding backend, SQL statements) enter as `Except`-valued
oracles.  `getEmbeddingColumnName` opens its own nested client. -/

inductive Event where
  | acquire
  | release
  | embedCall
  | sqlExec
deriving DecidableEq

/-- Occurrence count of one event in a trace. -/
def countEv (e : Event) : List Event → Nat
  | [] => 0
  | x :: xs => (if x = e then 1 else 0) + countEv e xs

/-- A trace is balanced when it acquires exactly as many pooled
connections as it releases. -/
def balancedTrace (tr : List Event) : Prop :=
  countEv Event.acquire tr = countEv Event.release tr

/-- Largest number of simultaneously held connections along a trace,
starting from `held` with running maximum `m`. -/
def maxHeldAux : List Event → Nat → Nat → Nat
  | [], _, m => m
  | Event.acquire :: tr, held, m => maxHeldAux tr (held + 1) (max m (held + 1))
  | Event.release :: tr, held, m => maxHeldAux tr (held - 1) m
  | Event.embedCall :: tr, held, m => maxHeldAux tr held m
  | Event.sqlExec :: tr, held, m => maxHeldAux tr held m

/-- Largest number of simultaneously held connections along a trace. -/
def maxHeld (tr : List Event) : Nat := maxHeldAux tr 0 0

/-- Whether some embedding-provider call happens while at least one
pooled connection is held. -/
def embedWhileHeldAux : List Event → Nat → Bool
  | [], _ => false
  | Event.acquire :: tr, held => embedWhileHeldAux tr (held + 1)
  | Event.release :: tr, held => embedWhileHeldAux tr (held - 1)
  | Event.embedCall :: tr, held => (0 < held) || embedWhileHeldAux tr held
  | Event.sqlExec :: tr, held => embedWhileHeldAux tr held

/-- Whether the trace performs an embedding call while holding a pooled
connection. -/
def embedWhileHeld (tr : List Event) : Bool := embedWhileHeldAux tr 0

/-- An error travelling towards the dispatcher's `catch`: an `McpError`
thrown deliberately, or an ordinary `Error` with a message. -/
inductive Thrown where
  | mcp (code : Int) (message : String)
  | err (message : String)
deriving DecidableEq

/-- `ErrorCode.MethodNotFound` of the MCP SDK. -/
def methodNotFoundCode : Int := -32601

/-- `ErrorCode.InternalError` of the MCP SDK. -/
def internalErrorCode : Int := -32603

/-- `error.message` as read by the dispatcher's `catch`: an `McpError`
carries `MCP error <code>: <message>`. -/
def thrownMessage : Thrown → String
  | Thrown.mcp code message => "MCP error " ++ toString code ++ ": " ++ message
  | Thrown.err message => message

/-- `generateEmbedding`: provider `none` throws before any backend
call; otherwise the backend is invoked and a backend failure is
re-thrown wrapped as `Embedding generation failed: ...`. -/
def generateEmbeddingOp (p : Provider) (backend : Except String (List ℚ)) :
    List Event × Except Thrown (List ℚ) :=
  match p with
  | Provider.none =>
      ([], Except.error (Thrown.err
        "No embedding provider configured. Please set up Azure OpenAI or Hugging Face credentials."))
  | _ =>
      match backend with
      | Except.ok v => ([Event.embedCall], Except.ok v)
      | Except.error e =>
          ([Event.embedCall],
           Except.error (Thrown.err ("Embedding generation failed: " ++ e)))

/-- `getEmbeddingColumnName` as a traced operation: borrow a client, run
the catalog query, release in `finally`.  The oracle yields
`rows[0]?.column_name`; the JavaScript `|| 'embedding'` fallback also
replaces an empty name. -/
def getEmbeddingColumnNameOp (colQ : Except String (Option String)) :
    List Event × Except Thrown String :=
  match colQ with
  | Except.error e =>
      ([Event.acquire, Event.sqlExec, Event.release],
       Except.error (Thrown.err e))
  | Except.ok row =>
      ([Event.acquire, Event.sqlExec, Event.release],
       Except.ok (match row with
         | Option.some s => if s = "" then "embedding" else s
         | Option.none => "embedding"))

/-- `vectorSearch` as a traced operation, following the source order:
borrow a client first, then generate the embedding, then resolve the
embedding column (a nested borrow), then run the similarity statement;
the `finally` releases the outer client on every path. -/
def vectorSearchOp (p : Provider) (backend : Except String (List ℚ))
    (colQ : Except String (Option String))
    (mainQ : Except String (List Row)) :
    List Event × Except Thrown (List Row) :=
  let e := generateEmbeddingOp p backend
  match e.2 with
  | Except.error err => (Event.acquire :: e.1 ++ [Event.release], Except.error err)
  | Except.ok _ =>
    let c := getEmbeddingColumnNameOp colQ
    match c.2 with
    | Except.error err =>
        (Event.acquire :: e.1 ++ c.1 ++ [Event.release], Except.error err)
    | Except.ok _ =>
      match mainQ with
      | Except.error err =>
          (Event.acquire :: e.1 ++ c.1 ++ [Event.sqlExec, Event.release],
           Except.error (Thrown.err err))
      | Except.ok rows =>
          (Event.acquire :: e.1 ++ c.1 ++ [Event.sqlExec, Event.release],
           Except.ok rows)

/-- `metadataSearch` as a traced operation: borrow, one statement,
release in `finally`. -/
def metadataSearchOp (mainQ : Except String (List Row)) :
    List Event × Except Thrown (List Row) :=
  match mainQ with
  | Except.error e =>
      ([Event.acquire, Event.sqlExec, Event.release],
       Except.error (Thrown.err e))
  | Except.ok rows =>
      ([Event.acquire, Event.sqlExec, Event.release], Except.ok rows)

/-- `insertDocument` as a traced operation: borrow, embed, resolve the
column (nested borrow), run the INSERT.  Reading `result.rows[0].id`
from an empty result set throws a raw TypeError. -/
def insertDocumentOp (p : Provider) (backend : Except String (List ℚ))
    (colQ : Except String (Option String))
    (insQ : Except String (Option Nat)) :
    List Event × Except Thrown Nat :=
  let e := generateEmbeddingOp p backend
  match e.2 with
  | Except.error err => (Event.acquire :: e.1 ++ [Event.release], Except.error err)
  | Except.ok _ =>
    let c := getEmbeddingColumnNameOp colQ
    match c.2 with
    | Except.error err =>
        (Event.acquire :: e.1 ++ c.1 ++ [Event.release], Except.error err)
    | Except.ok _ =>
      match insQ with
      | Except.error err =>
          (Event.acquire :: e.1 ++ c.1 ++ [Event.sqlExec, Event.release],
           Except.error (Thrown.err err))
      | Except.ok (Option.some id) =>
          (Event.acquire :: e.1 ++ c.1 ++ [Event.sqlExec, Event.release],
           Except.ok id)
      | Except.ok Option.none =>
          (Event.acquire :: e.1 ++ c.1 ++ [Event.sqlExec, Event.release],
           Except.error (Thrown.err
             "Cannot read properties of undefined (reading id)"))

/-- The per-table COUNT loop of `getDatabaseStats`: one statement per
table, no inner catch, so the first failure aborts the loop. -/
def statsLoop (countQ : String → Except String Nat) :
    List String → List Event × Except Thrown Unit
  | [] => ([], Except.ok ())
  | t :: ts =>
    match countQ t with
    | Except.error e => ([Event.sqlExec], Except.error (Thrown.err e))
    | Except.ok _ =>
      let r := statsLoop countQ ts
      (Event.sqlExec :: r.1, r.2)

/-- `getDatabaseStats` as a traced operation: borrow, catalog statement,
COUNT loop, release in `finally`. -/
def getDatabaseStatsOp (tablesQ : Except String (List String))
    (countQ : String → Except String Nat) :
    List Event × Except Thrown Unit :=
  match tablesQ with
  | Except.error e =>
      ([Event.acquire, Event.sqlExec, Event.release],
       Except.error (Thrown.err e))
  | Except.ok ts =>
    let r := statsLoop countQ ts
    match r.2 with
    | Except.error err =>
        (Event.acquire :: Event.sqlExec :: r.1 ++ [Event.release],
         Except.error err)
    | Except.ok _ =>
        (Event.acquire :: Event.sqlExec :: r.1 ++ [Event.release],
         Except.ok ())

/-- SQL events of the per-table phase of `getTableSchemas`: the COUNT
statement, then (when it succeeded) one sample statement per embedding
column; all failures are caught locally. -/
def schemaTableEvents (countQ : String → Except String Nat)
    (t : RawTable) : List Event :=
  match countQ t.name with
  | Except.error _ => [Event.sqlExec]
  | Except.ok _ =>
      Event.sqlExec :: (embeddingColumnsOf t).map (fun _ => Event.sqlExec)

/-- `getTableSchemas` as a traced operation: borrow, catalog join
statement, per-table loops with local catches, release in `finally`.
Only a failure of the catalog join propagates; every per-table failure
is absorbed, so a successful join always produces `Except.ok`. -/
def getTableSchemasOp (tablesQ : Except String (List RawTable))
    (countQ : String → Except String Nat)
    (sampleQ : String → String → Except String (Option Nat)) :
    List Event × Except Thrown (List TableDescriptor) :=
  match tablesQ with
  | Except.error e =>
      ([Event.acquire, Event.sqlExec, Event.release],
       Except.error (Thrown.err e))
  | Except.ok ts =>
      (Event.acquire :: Event.sqlExec ::
         (ts.map (schemaTableEvents countQ)).flatten ++ [Event.release],
       Except.ok (getTableSchemas countQ sampleQ ts))

/-! ## Tool dispatcher (`CallToolRequestSchema` handler)

The handler switches on the tool name inside one `try`; its `catch`
converts every thrown value — including the `McpError`s the handler
itself throws — into `McpError(InternalError, 'Tool execution failed: '
+ error.message)`. -/

/-- The outcome surfaced over the transport. -/
structure McpFailure where
  code : Int
  message : String
deriving DecidableEq

/-- The oracle bundle for one dispatched call: outcomes of every
external interaction a tool handler can perform. -/
structure Oracles where
  backend : Except String (List ℚ)
  colQ : Except String (Option String)
  mainQ : Except String (List Row)
  insQ : Except String (Option Nat)
  statsTablesQ : Except String (List String)
  schemaTablesQ : Except String (List RawTable)
  countQ : String → Except String Nat
  sampleQ : String → String → Except String (Option Nat)

/-- The body of the `try` block: the switch over the tool name.
`vector_search` and `insert_document` throw
`McpError(MethodNotFound, ...)` before touching the engine when the
provider is `none`; an unknown name throws
`McpError(MethodNotFound, 'Unknown tool: ...')`. -/
def callToolInner (p : Provider) (name : String) (o : Oracles) :
    List Event × Except Thrown Unit :=
  if name = "vector_search" then
    if p = Provider.none then
      ([], Except.error (Thrown.mcp methodNotFoundCode
        "Vector search is disabled. No embedding provider configured. Please set up Azure OpenAI or Hugging Face credentials."))
    else
      let r := vectorSearchOp p o.backend o.colQ o.mainQ
      (r.1, r.2.map (fun _ => ()))
  else if name = "metadata_search" then
    let r := metadataSearchOp o.mainQ
    (r.1, r.2.map (fun _ => ()))
  else if name = "get_database_stats" then
    let r := getDatabaseStatsOp o.statsTablesQ o.countQ
    (r.1, r.2.map (fun _ => ()))
  else if name = "get_table_schemas" then
    let r := getTableSchemasOp o.schemaTablesQ o.countQ o.sampleQ
    (r.1, r.2.map (fun _ => ()))
  else if name = "insert_document" then
    if p = Provider.none then
      ([], Except.error (Thrown.mcp methodNotFoundCode
        "Document insertion with embeddings is disabled. No embedding provider configured. Please set up Azure OpenAI or Hugging Face credentials."))
    else
      let r := insertDocumentOp p o.backend o.colQ o.insQ
      (r.1, r.2.map (fun _ => ()))
  else if name = "status_check" then
    ([], Except.ok ())
  else
    ([], Except.error (Thrown.mcp methodNotFoundCode
      ("Unknown tool: " ++ name)))

/-- The dispatched call as surfaced over the transport: the `catch`
re-wraps every thrown value into
`McpError(InternalError, 'Tool execution failed: ' + error.message)`. -/
def callTool (p : Provider) (name : String) (o : Oracles) :
    List Event × Except McpFailure Unit :=
  let r := callToolInner p name o
  match r.2 with
  | Except.ok u => (r.1, Except.ok u)
  | Except.error t =>
      (r.1, Except.error
        ⟨internalErrorCode, "Tool execution failed: " ++ thrownMessage t⟩)

/-- A fixed oracle bundle in which every external call succeeds with an
empty answer; used to evaluate the dispatcher at concrete inputs. -/
def trivialOracles : Oracles :=
  ⟨Except.ok [], Except.ok Option.none, Except.ok [], Except.ok Option.none,
   Except.ok [], Except.ok [], fun _ => Except.ok 0,
   fun _ _ => Except.ok Option.none⟩

/-! # Theorems -/

/-! ## Helper lemmas on event counting -/

theorem countEv_append (e : Event) (xs ys : List Event) :
    countEv e (xs ++ ys) = countEv e xs + countEv e ys := by
  induction xs with
  | nil => simp [countEv]
  | cons x xs ih => simp [countEv, ih]; omega

theorem countEv_eq_zero (e : Event) (tr : List Event)
    (h : ∀ x ∈ tr, x ≠ e) : countEv e tr = 0 := by
  induction tr with
  | nil => rfl
  | cons x xs ih =>
    have hx := h x (List.mem_cons_self x xs)
    simp [countEv, hx, ih (fun y hy => h y (List.mem_cons_of_mem x hy))]

theorem statsLoop_countEv (countQ : String → Except String Nat)
    (ts : List String) (e : Event) (he : e ≠ Event.sqlExec) :
    countEv e (statsLoop countQ ts).1 = 0 := by
  induction ts with
  | nil => rfl
  | cons t ts ih =>
    cases h : countQ t with
    | error err => simp [statsLoop, h, countEv, Ne.symm he]
    | ok n => simp [statsLoop, h, countEv, Ne.symm he, ih]

theorem schemaTableEvents_countEv (countQ : String → Except String Nat)
    (t : RawTable) (e : Event) (he : e ≠ Event.sqlExec) :
    countEv e (schemaTableEvents countQ t) = 0 := by
  apply countEv_eq_zero
  intro x hx
  cases h : countQ t.name with
  | error err =>
    simp [schemaTableEvents, h] at hx
    simp [hx, Ne.symm he]
  | ok n =>
    simp [schemaTableEvents, h] at hx
    rcases hx with hx | ⟨-, hx⟩ <;> simp [hx, Ne.symm he]

theorem schemaFlatten_countEv (countQ : String → Except String Nat)
    (ts : List RawTable) (e : Event) (he : e ≠ Event.sqlExec) :
    countEv e ((ts.map (schemaTableEvents countQ)).flatten) = 0 := by
  induction ts with
  | nil => rfl
  | cons t ts ih =>
    simp only [List.map_cons, List.flatten_cons, countEv_append]
    rw [schemaTableEvents_countEv countQ t e he, ih]

/-! ## C10: dispatcher falsy argument defaulting -/

/-- C10: at the dispatcher boundary a caller-supplied
`similarity_threshold` of 0 or `limit` of 0 is silently replaced by the
default (threshold 1/2 and limit 5 for `vector_search`, limit 10 for
`metadata_search`), because `args.x || d` treats every falsy value as
absent; hence no dispatched `vector_search` runs with threshold exactly
0, although the declared input schema states minimum 0. -/
theorem C10_falsy_defaulting :
    vectorSearchEffectiveThreshold (Option.some 0) = 1/2 ∧
    vectorSearchEffectiveLimit (Option.some 0) = 5 ∧
    metadataSearchEffectiveLimit (Option.some 0) = 10 ∧
    (∀ v : Option ℚ,
      decide (vectorSearchEffectiveThreshold v = 0) = false) ∧
    vector_search_threshold_schema.minimum = 0 := by
  refine ⟨by simp [vectorSearchEffectiveThreshold, jsOrNum],
          by simp [vectorSearchEffectiveLimit, jsOrNum],
          by simp [metadataSearchEffectiveLimit, jsOrNum], ?_, rfl⟩
  intro v
  rw [decide_eq_false_iff_not]
  cases v with
  | none => simp [vectorSearchEffectiveThreshold, jsOrNum]
  | some x =>
    simp only [vectorSearchEffectiveThreshold, jsOrNum]
    split
    · norm_num
    · assumption

/-! ## C9: Hugging Face response normalization -/

/-- C9 counterexample: the claim states that every response — nested
structures included — is normalised into a flat float vector, but
`Array.isArray` accepts a nested array and the source then returns it
unchanged: a nested `[[1]]` response stays nested. -/
theorem C9_counterexample :
    isFlatFloatVector
      (generateHuggingFaceEmbedding (JsVal.arr [JsVal.arr [JsVal.num 1]])) =
      false := rfl

/-- C9 amended: `generateHuggingFaceEmbedding` converts a
typed-array-like response into a flat float vector via `Array.from`,
but returns any plain-array response — nested arrays included —
completely unchanged; no flattening is performed. -/
theorem C9_hf_normalization_amended (xs : List ℚ) (ys : List JsVal) :
    generateHuggingFaceEmbedding (JsVal.typed xs) =
      JsVal.arr (xs.map JsVal.num) ∧
    isFlatFloatVector (generateHuggingFaceEmbedding (JsVal.typed xs)) =
      true ∧
    generateHuggingFaceEmbedding (JsVal.arr ys) = JsVal.arr ys := by
  refine ⟨rfl, ?_, rfl⟩
  show isFlatFloatVector (JsVal.arr (xs.map JsVal.num)) = true
  rw [isFlatFloatVector, List.all_eq_true]
  intro v hv
  rcases List.mem_map.mp hv with ⟨a, -, rfl⟩
  rfl

/-! ## C1: provider `none` gating at the dispatcher -/

/-- C1 counterexample: with provider `none`, a direct `vector_search`
invocation does fail before any embedding or SQL work, but the failure
surfaced over the transport carries the `InternalError` code (-32603),
not the `MethodNotFound` code (-32601) the claim states: the handler's
blanket `catch` re-wraps its own `McpError`. -/
theorem C1_counterexample :
    (callTool Provider.none "vector_search" trivialOracles).2 =
      Except.error ⟨internalErrorCode,
        "Tool execution failed: MCP error -32601: Vector search is disabled. No embedding provider configured. Please set up Azure OpenAI or Hugging Face credentials."⟩ ∧
    decide (internalErrorCode = methodNotFoundCode) = false :=
  ⟨rfl, rfl⟩

/-- C1 amended: when the provider is `none`, the tool listing excludes
`vector_search` and `insert_document` and still contains
`metadata_search`, `get_database_stats`, `get_table_schemas` and
`status_check`; a direct invocation of either excluded tool fails
without any embedding-backend call, SQL execution or connection borrow
— the handler raises `MethodNotFound` internally, but the dispatcher's
blanket `catch` surfaces it wrapped with the `InternalError` code and a
`Tool execution failed: ...` message. -/
theorem C1_provider_none_gating_amended (o : Oracles) :
    listTools Provider.none =
      ["metadata_search", "get_database_stats", "get_table_schemas",
       "status_check"] ∧
    (listTools Provider.none).contains "vector_search" = false ∧
    (listTools Provider.none).contains "insert_document" = false ∧
    (callTool Provider.none "vector_search" o).1 = [] ∧
    countEv Event.embedCall (callTool Provider.none "vector_search" o).1 = 0 ∧
    countEv Event.sqlExec (callTool Provider.none "vector_search" o).1 = 0 ∧
    (callTool Provider.none "vector_search" o).2 =
      Except.error ⟨internalErrorCode,
        "Tool execution failed: MCP error -32601: Vector search is disabled. No embedding provider configured. Please set up Azure OpenAI or Hugging Face credentials."⟩ ∧
    (callTool Provider.none "insert_document" o).1 = [] ∧
    (callTool Provider.none "insert_document" o).2 =
      Except.error ⟨internalErrorCode,
        "Tool execution failed: MCP error -32601: Document insertion with embeddings is disabled. No embedding provider configured. Please set up Azure OpenAI or Hugging Face credentials."⟩ :=
  ⟨rfl, rfl, rfl, rfl, rfl, rfl, rfl, rfl, rfl⟩

/-! ## C8: connection held across the embedding call -/

/-- C8 counterexample: in a successful `vectorSearch` run the trace
acquires the pooled client before the embedding call, performs the
embedding call while holding it, and holds two pooled connections at
once while the nested `getEmbeddingColumnName` borrow is live — the
claim asserts the opposite on all three points. -/
theorem C8_counterexample :
    (vectorSearchOp Provider.azure (Except.ok [])
        (Except.ok (Option.some "embedding")) (Except.ok [])).1 =
      [Event.acquire, Event.embedCall, Event.acquire, Event.sqlExec,
       Event.release, Event.sqlExec, Event.release] ∧
    embedWhileHeld
      (vectorSearchOp Provider.azure (Except.ok [])
        (Except.ok (Option.some "embedding")) (Except.ok [])).1 = true ∧
    maxHeld
      (vectorSearchOp Provider.azure (Except.ok [])
        (Except.ok (Option.some "embedding")) (Except.ok [])).1 = 2 :=
  ⟨rfl, rfl, rfl⟩

/-- C8 amended: for every provider other than `none` and every
successful oracle outcome, `vectorSearch` and `insertDocument` acquire
their pooled client before computing the embedding, perform the
embedding-provider call while holding it, and reach a peak of two
simultaneously held pooled connections during the nested
`getEmbeddingColumnName` borrow. -/
theorem C8_embedding_inside_connection_amended
    (p : Provider) (hp : p ≠ Provider.none) (v : List ℚ)
    (row : Option String) (rows : List Row) (ins : Option Nat) :
    (vectorSearchOp p (Except.ok v) (Except.ok row) (Except.ok rows)).1 =
      [Event.acquire, Event.embedCall, Event.acquire, Event.sqlExec,
       Event.release, Event.sqlExec, Event.release] ∧
    embedWhileHeld
      (vectorSearchOp p (Except.ok v) (Except.ok row)
        (Except.ok rows)).1 = true ∧
    maxHeld
      (vectorSearchOp p (Except.ok v) (Except.ok row)
        (Except.ok rows)).1 = 2 ∧
    (insertDocumentOp p (Except.ok v) (Except.ok row) (Except.ok ins)).1 =
      [Event.acquire, Event.embedCall, Event.acquire, Event.sqlExec,
       Event.release, Event.sqlExec, Event.release] ∧
    embedWhileHeld
      (insertDocumentOp p (Except.ok v) (Except.ok row)
        (Except.ok ins)).1 = true ∧
    maxHeld
      (insertDocumentOp p (Except.ok v) (Except.ok row)
        (Except.ok ins)).1 = 2 := by
  cases p with
  | none => exact absurd rfl hp
  | azure => cases ins <;> exact ⟨rfl, rfl, rfl, rfl, rfl, rfl⟩
  | huggingface => cases ins <;> exact ⟨rfl, rfl, rfl, rfl, rfl, rfl⟩

/-- C8 witness: the amended theorem applied at provider `azure` with
concrete successful oracles. -/
theorem C8_witness :
    (vectorSearchOp Provider.azure (Except.ok [1])
        (Except.ok (Option.some "embedding")) (Except.ok [])).1 =
      [Event.acquire, Event.embedCall, Event.acquire, Event.sqlExec,
       Event.release, Event.sqlExec, Event.release] ∧
    embedWhileHeld
      (vectorSearchOp Provider.azure (Except.ok [1])
        (Except.ok (Option.some "embedding")) (Except.ok [])).1 = true ∧
    maxHeld
      (vectorSearchOp Provider.azure (Except.ok [1])
        (Except.ok (Option.some "embedding")) (Except.ok [])).1 = 2 ∧
    (insertDocumentOp Provider.azure (Except.ok [1])
        (Except.ok (Option.some "embedding")) (Except.ok (Option.some 7))).1 =
      [Event.acquire, Event.embedCall, Event.acquire, Event.sqlExec,
       Event.release, Event.sqlExec, Event.release] ∧
    embedWhileHeld
      (insertDocumentOp Provider.azure (Except.ok [1])
        (Except.ok (Option.some "embedding"))
        (Except.ok (Option.some 7))).1 = true ∧
    maxHeld
      (insertDocumentOp Provider.azure (Except.ok [1])
        (Except.ok (Option.some "embedding"))
        (Except.ok (Option.some 7))).1 = 2 :=
  C8_embedding_inside_connection_amended Provider.azure (by decide) [1]
    (Option.some "embedding") [] (Option.some 7)

/-! ## C2: no clamping of limit / threshold -/

/-- C2 counterexample: the claim says the applied limit is clamped into
[1, 50], the applied threshold into [0, 1] and the metadata limit into
[1, 100]; in fact `vectorSearch` and `metadataSearch` forward the
caller-supplied numbers into the bound-parameter arrays unchanged
(limit 200, threshold 2, metadata limit 1000 all pass through), and a
query with limit 51 observably returns 51 rows. -/
theorem C2_counterexample :
    vectorSearchParams [] (1/2) 200 =
      [SqlValue.str "[]", SqlValue.num (1/2), SqlValue.num 200] ∧
    decide ((200:ℚ) ≤ 50) = false ∧
    vectorSearchParams [] 2 5 =
      [SqlValue.str "[]", SqlValue.num 2, SqlValue.num 5] ∧
    decide ((2:ℚ) ≤ 1) = false ∧
    (metadataSearchQuery [] "document_embeddings" 1000).2 =
      [SqlValue.num 1000] ∧
    decide ((1000:ℚ) ≤ 100) = false ∧
    (vectorSearchModel (fun _ _ => 0) [] 0 51
        (List.replicate 51 ⟨1, "doc", [], [], 0⟩)).length = 51 ∧
    decide (51 ≤ 50) = false := by
  refine ⟨rfl, ?_, rfl, ?_, rfl, ?_, ?_, by decide⟩
  · rw [decide_eq_false_iff_not]; norm_num
  · rw [decide_eq_false_iff_not]; norm_num
  · rw [decide_eq_false_iff_not]; norm_num
  · unfold vectorSearchModel
    rw [List.length_take, List.length_insertionSort]
    norm_num

/-- C2 amended: no clamping is performed anywhere: `vectorSearch`
forwards its threshold and limit, and `metadataSearch` its limit, as
bound parameters exactly as supplied (after only the dispatcher's falsy
defaulting); the ranges [1, 50], [0, 1] and [1, 100] appear solely in
the advertised tool input schemas and are not enforced. -/
theorem C2_no_clamping_amended (emb : List ℚ) (th l : ℚ)
    (filters : List (String × String)) (table : String) (ml : ℚ)
    (tOpt lOpt : Option ℚ) :
    vectorSearchParams emb th l =
      [SqlValue.str (vecLiteral emb), SqlValue.num th, SqlValue.num l] ∧
    (metadataSearchQuery filters table ml).2 =
      filters.map (fun kv => SqlValue.str ("%" ++ kv.2 ++ "%")) ++
        [SqlValue.num ml] ∧
    vectorSearchParams emb (vectorSearchEffectiveThreshold tOpt)
        (vectorSearchEffectiveLimit lOpt) =
      [SqlValue.str (vecLiteral emb), SqlValue.num (jsOrNum tOpt (1/2)),
       SqlValue.num (jsOrNum lOpt 5)] ∧
    vector_search_limit_schema = ⟨5, 1, 50⟩ ∧
    vector_search_threshold_schema = ⟨1/2, 0, 1⟩ ∧
    metadata_search_limit_schema = ⟨10, 1, 100⟩ :=
  ⟨rfl, rfl, rfl, rfl, rfl, rfl⟩

/-! ## C3: vectorSearch result postconditions -/

/-- C3: for every query embedding, distance semantics, threshold, limit
and row set, `vectorSearch` returns at most `limit` rows; every
returned row's similarity `1 - cosine distance` strictly exceeds the
threshold; and the rows come ordered by ascending cosine distance,
equivalently descending similarity. -/
theorem C3_vector_search_postconditions
    (cosDist : List ℚ → List ℚ → ℚ) (q : List ℚ) (threshold : ℚ)
    (lim : Nat) (rows : List Row) :
    (vectorSearchModel cosDist q threshold lim rows).length ≤ lim ∧
    (vectorSearchModel cosDist q threshold lim rows).all
      (fun r => threshold < 1 - cosDist r.embedding q) = true ∧
    (vectorSearchModel cosDist q threshold lim rows).Pairwise
      (distLe cosDist q) ∧
    (vectorSearchModel cosDist q threshold lim rows).Pairwise
      (fun a b => 1 - cosDist b.embedding q ≤ 1 - cosDist a.embedding q) := by
  have hsorted := List.sorted_insertionSort (distLe cosDist q)
    (rows.filter (fun r => threshold < 1 - cosDist r.embedding q))
  have hpair : (vectorSearchModel cosDist q threshold lim rows).Pairwise
      (distLe cosDist q) :=
    List.Pairwise.sublist (List.take_sublist _ _) hsorted
  refine ⟨?_, ?_, hpair, ?_⟩
  · unfold vectorSearchModel
    rw [List.length_take]
    exact min_le_left _ _
  · rw [List.all_eq_true]
    intro r hr
    have h1 : r ∈ (rows.filter
        (fun r => threshold < 1 - cosDist r.embedding q)).insertionSort
          (distLe cosDist q) :=
      List.mem_of_mem_take hr
    have h2 := (List.perm_insertionSort (distLe cosDist q) _).mem_iff.mp h1
    exact (List.mem_filter.mp h2).2
  · exact hpair.imp (fun hab => sub_le_sub_left hab 1)

/-! ## C4: embedding column resolution order -/

theorem rankLe_trans (a b c : ColumnDef) (hab : rankLe a b = true)
    (hbc : rankLe b c = true) : rankLe a c = true := by
  simp only [rankLe, decide_eq_true_eq] at *
  omega

theorem rankLe_total (a b : ColumnDef) : (rankLe a b || rankLe b a) = true := by
  simp only [rankLe, Bool.or_eq_true, decide_eq_true_eq]
  omega

theorem embeddingRank_pos (n : String) : 1 ≤ embeddingRank n := by
  unfold embeddingRank
  split
  · omega
  · split <;> omega

theorem embeddingRank_eq_one (n : String) (h : embeddingRank n = 1) :
    n = "embedding" := by
  unfold embeddingRank at h
  split at h
  · assumption
  · split at h <;> omega

theorem embeddingRank_eq_two (n : String) (h : embeddingRank n = 2) :
    n = "content_embedding" := by
  unfold embeddingRank at h
  split at h
  · omega
  · split at h
    · assumption
    · omega

theorem mergeSort_rankLe_head_min (l : List ColumnDef) (c : ColumnDef)
    (hc : c ∈ l) :
    ∃ h, (l.mergeSort rankLe).head? = Option.some h ∧ h ∈ l ∧
      embeddingRank h.column_name ≤ embeddingRank c.column_name := by
  have hmem : c ∈ l.mergeSort rankLe := List.mem_mergeSort.mpr hc
  match hms : l.mergeSort rankLe with
  | [] => rw [hms] at hmem; cases hmem
  | h :: t =>
    rw [hms] at hmem
    refine ⟨h, rfl, ?_, ?_⟩
    · exact List.mem_mergeSort.mp (by rw [hms]; exact List.mem_cons_self h t)
    · have hpw := List.sorted_mergeSort rankLe_trans rankLe_total l
      rw [hms] at hpw
      rcases List.mem_cons.mp hmem with rfl | hct
      · exact le_refl _
      · have := (List.pairwise_cons.mp hpw).1 c hct
        simpa only [rankLe, decide_eq_true_eq] using this

theorem isEmbeddingCandidate_of_name_embedding (c : ColumnDef)
    (h : c.column_name = "embedding") : isEmbeddingCandidate c = true := by
  have hs : strContains "embedding" "embedding" = true := by decide
  simp [isEmbeddingCandidate, h, hs]

theorem isEmbeddingCandidate_of_name_content (c : ColumnDef)
    (h : c.column_name = "content_embedding") :
    isEmbeddingCandidate c = true := by
  have hs : strContains "content_embedding" "embedding" = true := by decide
  simp [isEmbeddingCandidate, h, hs]

/-- C4: `getEmbeddingColumnName` returns the column literally named
`embedding` when one exists among the table's columns; else
`content_embedding` when that exists; else the name of some candidate
column (name containing `embedding`, or vector user-defined type) when
any exists; and the literal fallback `embedding` when no candidate
exists, never failing.  (Real catalogs have no empty column names,
hence the nonempty-name side condition for the third case.) -/
theorem C4_embedding_column_resolution (cols : List ColumnDef)
    (hne : cols.all (fun c => !(c.column_name == "")) = true) :
    (cols.any (fun c => c.column_name == "embedding") = true →
      getEmbeddingColumnName cols = "embedding") ∧
    (cols.any (fun c => c.column_name == "embedding") = false →
     cols.any (fun c => c.column_name == "content_embedding") = true →
      getEmbeddingColumnName cols = "content_embedding") ∧
    (cols.filter isEmbeddingCandidate ≠ [] →
      getEmbeddingColumnName cols ∈
        (cols.filter isEmbeddingCandidate).map (fun c => c.column_name)) ∧
    (cols.filter isEmbeddingCandidate = [] →
      getEmbeddingColumnName cols = "embedding") := by
  have hrank1 : embeddingRank "embedding" = 1 := by decide
  have hrank2 : embeddingRank "content_embedding" = 2 := by decide
  refine ⟨?_, ?_, ?_, ?_⟩
  · intro hany
    rcases List.any_eq_true.mp hany with ⟨c, hcmem, hcname⟩
    have hcname' : c.column_name = "embedding" := by
      simpa using hcname
    have hcfilter : c ∈ cols.filter isEmbeddingCandidate :=
      List.mem_filter.mpr ⟨hcmem, isEmbeddingCandidate_of_name_embedding c hcname'⟩
    rcases mergeSort_rankLe_head_min _ c hcfilter with ⟨h, hhead, -, hrk⟩
    rw [hcname', hrank1] at hrk
    have h1 : embeddingRank h.column_name = 1 :=
      le_antisymm hrk (embeddingRank_pos _)
    have hhname := embeddingRank_eq_one _ h1
    unfold getEmbeddingColumnName
    rw [hhead]
    show (if h.column_name = "" then "embedding" else h.column_name) =
      "embedding"
    rw [hhname]
    decide
  · intro hnone hany
    rcases List.any_eq_true.mp hany with ⟨c, hcmem, hcname⟩
    have hcname' : c.column_name = "content_embedding" := by
      simpa using hcname
    have hcfilter : c ∈ cols.filter isEmbeddingCandidate :=
      List.mem_filter.mpr ⟨hcmem, isEmbeddingCandidate_of_name_content c hcname'⟩
    rcases mergeSort_rankLe_head_min _ c hcfilter with ⟨h, hhead, hhl, hrk⟩
    rw [hcname', hrank2] at hrk
    have hhcols : h ∈ cols := (List.mem_filter.mp hhl).1
    have hhnotemb : h.column_name ≠ "embedding" := by
      intro hcontra
      have hall := List.any_eq_false.mp hnone h hhcols
      exact hall
        (by show (h.column_name == "embedding") = true; rw [hcontra]; rfl)
    have hge2 : 2 ≤ embeddingRank h.column_name := by
      rcases Nat.lt_or_ge (embeddingRank h.column_name) 2 with hlt | hge
      · have h1 : embeddingRank h.column_name = 1 := by
          have := embeddingRank_pos h.column_name
          omega
        exact absurd (embeddingRank_eq_one _ h1) hhnotemb
      · exact hge
    have h2 : embeddingRank h.column_name = 2 := le_antisymm hrk hge2
    have hhname := embeddingRank_eq_two _ h2
    unfold getEmbeddingColumnName
    rw [hhead]
    show (if h.column_name = "" then "embedding" else h.column_name) =
      "content_embedding"
    rw [hhname]
    decide
  · intro hnonnil
    rcases List.exists_mem_of_ne_nil _ hnonnil with ⟨c, hcmem⟩
    rcases mergeSort_rankLe_head_min _ c hcmem with ⟨h, hhead, hhl, -⟩
    have hhcols : h ∈ cols := (List.mem_filter.mp hhl).1
    have hhne : h.column_name ≠ "" := by
      have := List.all_eq_true.mp hne h hhcols
      simpa using this
    unfold getEmbeddingColumnName
    rw [hhead]
    show (if h.column_name = "" then "embedding" else h.column_name) ∈ _
    rw [if_neg hhne]
    exact List.mem_map.mpr ⟨h, hhl, rfl⟩
  · intro hnil
    unfold getEmbeddingColumnName
    rw [hnil, List.mergeSort_nil]
    rfl

/-- C4 witness: the resolution theorem applied at a concrete catalog
holding only a `content_embedding` vector column, and at the empty
catalog. -/
theorem C4_witness :
    getEmbeddingColumnName [⟨"content_embedding", "USER-DEFINED"⟩] =
      "content_embedding" ∧
    getEmbeddingColumnName [] = "embedding" :=
  ⟨(C4_embedding_column_resolution [⟨"content_embedding", "USER-DEFINED"⟩]
      (by decide)).2.1 (by decide) (by decide),
   (C4_embedding_column_resolution [] (by decide)).2.2.2 (by decide)⟩

/-! ## C7: pooled connections released on every exit path -/

/-- C7: every Query Engine operation — `vectorSearch`,
`metadataSearch`, `insertDocument`, `getTableSchemas`,
`getDatabaseStats`, `getEmbeddingColumnName` — releases every pooled
connection it acquires on every exit path: for every provider and every
oracle outcome (success, SQL error, embedding error) the produced event
trace contains exactly as many releases as acquisitions. -/
theorem C7_connection_release
    (p : Provider) (backend : Except String (List ℚ))
    (colQ : Except String (Option String))
    (mainQ mainQ2 : Except String (List Row))
    (insQ : Except String (Option Nat))
    (tablesQ : Except String (List String))
    (schemaQ : Except String (List RawTable))
    (countQ : String → Except String Nat)
    (sampleQ : String → String → Except String (Option Nat)) :
    balancedTrace (vectorSearchOp p backend colQ mainQ).1 ∧
    balancedTrace (metadataSearchOp mainQ2).1 ∧
    balancedTrace (insertDocumentOp p backend colQ insQ).1 ∧
    balancedTrace (getTableSchemasOp schemaQ countQ sampleQ).1 ∧
    balancedTrace (getDatabaseStatsOp tablesQ countQ).1 ∧
    balancedTrace (getEmbeddingColumnNameOp colQ).1 := by
  refine ⟨?_, ?_, ?_, ?_, ?_, ?_⟩
  · unfold balancedTrace
    rcases p <;> rcases backend with e | v <;> rcases colQ with e2 | r2 <;>
      rcases mainQ with e3 | r3 <;>
        simp [vectorSearchOp, generateEmbeddingOp, getEmbeddingColumnNameOp,
          countEv, countEv_append]
  · unfold balancedTrace
    rcases mainQ2 with e | r <;> simp [metadataSearchOp, countEv]
  · unfold balancedTrace
    rcases p <;> rcases backend with e | v <;> rcases colQ with e2 | r2 <;>
      rcases insQ with e3 | (_ | n) <;>
        simp [insertDocumentOp, generateEmbeddingOp, getEmbeddingColumnNameOp,
          countEv, countEv_append]
  · unfold balancedTrace
    rcases schemaQ with e | ts
    · simp [getTableSchemasOp, countEv]
    · simp [getTableSchemasOp, countEv, countEv_append,
        schemaFlatten_countEv countQ ts Event.acquire (by decide),
        schemaFlatten_countEv countQ ts Event.release (by decide)]
  · unfold balancedTrace
    rcases tablesQ with e | ts
    · simp [getDatabaseStatsOp, countEv]
    · rcases hr : (statsLoop countQ ts).2 with e2 | u <;>
        simp [getDatabaseStatsOp, hr, countEv, countEv_append,
          statsLoop_countEv countQ ts Event.acquire (by decide),
          statsLoop_countEv countQ ts Event.release (by decide)]
  · unfold balancedTrace
    rcases colQ with e | r <;> simp [getEmbeddingColumnNameOp, countEv]

/-! ## C6: schema introspection error handling -/

theorem processTable_vectorDimensions_ok
    (countQ : String → Except String Nat)
    (sampleQ : String → String → Except String (Option Nat))
    (t : RawTable) (n : Nat) (h : countQ t.name = Except.ok n) :
    (processTable countQ sampleQ t).vectorDimensions =
      sampleDims sampleQ t.name (embeddingColumnsOf t) := by
  unfold processTable
  rw [h]

/-- C6 counterexample: the claim states that whenever sampling does not
yield a dimension — the empty-table case included — the dimension is
recorded as `unknown`; but when the sample query succeeds with no row
(empty table) the truthiness guard skips the assignment entirely: the
column gets no `vectorDimensions` entry at all. -/
theorem C6_counterexample :
    (processTable (fun _ => Except.ok 0) (fun _ _ => Except.ok Option.none)
        ⟨"docs", [⟨"embedding", "USER-DEFINED", "YES", Option.none, "vector",
          Option.none⟩]⟩).vectorDimensions = [] ∧
    embeddingColumnsOf
        ⟨"docs", [⟨"embedding", "USER-DEFINED", "YES", Option.none, "vector",
          Option.none⟩]⟩ = ["embedding"] ∧
    ((processTable (fun _ => Except.ok 0) (fun _ _ => Except.ok Option.none)
        ⟨"docs", [⟨"embedding", "USER-DEFINED", "YES", Option.none, "vector",
          Option.none⟩]⟩).vectorDimensions.find?
      (fun pr => pr.1 == "embedding")) = Option.none := by
  exact ⟨rfl, by decide, rfl⟩

/-- C6 amended: `getTableSchemas` never raises because a table's
sampling fails — under any oracle outcome, a successful catalog join
returns `Except.ok` with one descriptor per table; when a table's COUNT
succeeds and an embedding column's sample query errors, that column's
dimension is recorded as `unknown`; but when the sample query succeeds
without yielding a dimension (the empty-table case), the column is left
without any dimension entry instead of `unknown`. -/
theorem C6_introspection_error_handling_amended
    (countQ : String → Except String Nat)
    (sampleQ : String → String → Except String (Option Nat))
    (ts : List RawTable) (t : RawTable) (c : String) :
    (getTableSchemasOp (Except.ok ts) countQ sampleQ).2 =
      Except.ok (getTableSchemas countQ sampleQ ts) ∧
    (getTableSchemas countQ sampleQ ts).length = ts.length ∧
    (∀ n e, c ∈ embeddingColumnsOf t → countQ t.name = Except.ok n →
      sampleQ t.name c = Except.error e →
      (c, Dim.unknown) ∈ (processTable countQ sampleQ t).vectorDimensions) ∧
    (∀ n d, c ∈ embeddingColumnsOf t → countQ t.name = Except.ok n →
      sampleQ t.name c = Except.ok Option.none →
      (c, d) ∉ (processTable countQ sampleQ t).vectorDimensions) := by
  refine ⟨rfl, by simp [getTableSchemas], ?_, ?_⟩
  · intro n e hc hcount hsample
    rw [processTable_vectorDimensions_ok countQ sampleQ t n hcount]
    refine List.mem_filterMap.mpr ⟨c, hc, ?_⟩
    rw [hsample]
  · intro n d hc hcount hsample hmem
    rw [processTable_vectorDimensions_ok countQ sampleQ t n hcount] at hmem
    simp only [sampleDims, List.mem_filterMap] at hmem
    rcases hmem with ⟨a, ha, hfa⟩
    rcases haq : sampleQ t.name a with e | o <;> rw [haq] at hfa
    · simp only [Option.some.injEq, Prod.mk.injEq] at hfa
      obtain ⟨rfl, -⟩ := hfa
      rw [hsample] at haq
      cases haq
    · rcases o with _ | k
      · simp at hfa
      · by_cases hk : k = 0
        · rw [hk] at hfa
          simp at hfa
        · simp only [if_neg hk, Option.some.injEq, Prod.mk.injEq] at hfa
          obtain ⟨rfl, -⟩ := hfa
          rw [hsample] at haq
          cases haq

/-- C6 witness: the amended theorem applied to one concrete table with
an `embedding` vector column, a succeeding COUNT and a failing sample
query: introspection returns `Except.ok` and the column's dimension is
recorded as `unknown`. -/
theorem C6_witness :
    (getTableSchemasOp
        (Except.ok [⟨"docs", [⟨"embedding", "USER-DEFINED", "YES",
          Option.none, "vector", Option.none⟩]⟩])
        (fun _ => Except.ok 2) (fun _ _ => Except.error "cast error")).2 =
      Except.ok (getTableSchemas (fun _ => Except.ok 2)
        (fun _ _ => Except.error "cast error")
        [⟨"docs", [⟨"embedding", "USER-DEFINED", "YES", Option.none,
          "vector", Option.none⟩]⟩]) ∧
    ("embedding", Dim.unknown) ∈
      (processTable (fun _ => Except.ok 2)
        (fun _ _ => Except.error "cast error")
        ⟨"docs", [⟨"embedding", "USER-DEFINED", "YES", Option.none,
          "vector", Option.none⟩]⟩).vectorDimensions :=
  ⟨(C6_introspection_error_handling_amended (fun _ => Except.ok 2)
      (fun _ _ => Except.error "cast error")
      [⟨"docs", [⟨"embedding", "USER-DEFINED", "YES", Option.none,
        "vector", Option.none⟩]⟩]
      ⟨"docs", [⟨"embedding", "USER-DEFINED", "YES", Option.none,
        "vector", Option.none⟩]⟩ "embedding").1,
   (C6_introspection_error_handling_amended (fun _ => Except.ok 2)
      (fun _ _ => Except.error "cast error")
      [⟨"docs", [⟨"embedding", "USER-DEFINED", "YES", Option.none,
        "vector", Option.none⟩]⟩]
      ⟨"docs", [⟨"embedding", "USER-DEFINED", "YES", Option.none,
        "vector", Option.none⟩]⟩ "embedding").2.2.1 2 "cast error"
     (by decide) rfl rfl⟩

/-! ## C5: metadataSearch semantics and parameterization -/

theorem anySuffix_tails (f : List Char → Bool) (s : List Char) :
    anySuffix f s = s.tails.any f := by
  induction s with
  | nil => simp [anySuffix]
  | cons c cs ih => simp [anySuffix, List.tails, ih]

theorem likeMatch_nil (s : List Char) : likeMatch [] s = s.isEmpty := by
  rw [likeMatch.eq_def]

theorem likeMatch_lit_nil (p : Char) (ps : List Char) (h1 : ¬(p = '%'))
    (h3 : ¬(p = '\\')) : likeMatch (p :: ps) [] = false := by
  rw [likeMatch.eq_def]
  simp only [if_neg h1, if_neg h3]

theorem likeMatch_lit_cons (p : Char) (ps : List Char) (c : Char)
    (cs : List Char) (h1 : ¬(p = '%')) (h3 : ¬(p = '\\')) :
    likeMatch (p :: ps) (c :: cs) =
      ((if p = '_' then true else (p = c)) && likeMatch ps cs) := by
  rw [likeMatch.eq_def]
  simp only [if_neg h1, if_neg h3]

theorem likeMatch_pct (ps s : List Char) :
    likeMatch ('%' :: ps) s = s.tails.any (fun t => likeMatch ps t) := by
  rw [show likeMatch ('%' :: ps) s = anySuffix (likeMatch ps) s from by
    rw [likeMatch.eq_def]; simp, anySuffix_tails]

theorem likeMatch_pct_all (s : List Char) : likeMatch ['%'] s = true := by
  rw [likeMatch_pct, List.any_eq_true]
  exact ⟨[], (List.mem_tails [] s).mpr List.nil_suffix,
    by rw [likeMatch_nil]; rfl⟩

theorem likeMatch_pct_of (ps s : List Char) (h : likeMatch ps s = true) :
    likeMatch ('%' :: ps) s = true := by
  rw [likeMatch_pct, List.any_eq_true]
  exact ⟨s, (List.mem_tails s s).mpr (List.suffix_refl s), h⟩

theorem likeMatch_lit (v : List Char) : ∀ s : List Char,
    noLikeMeta v = true → likeMatch (v ++ ['%']) s = chListPrefix v s := by
  induction v with
  | nil =>
    intro s hv
    simp [chListPrefix, likeMatch_pct_all]
  | cons a as ih =>
    intro s hv
    have hmeta := (List.all_eq_true.mp hv) a (List.mem_cons_self a as)
    have h1 : ¬(a = '%') := fun h => by simp [isLikeMeta, h] at hmeta
    have h2 : ¬(a = '_') := fun h => by simp [isLikeMeta, h] at hmeta
    have h3 : ¬(a = '\\') := fun h => by simp [isLikeMeta, h] at hmeta
    have has : noLikeMeta as = true := by
      rw [noLikeMeta, List.all_eq_true]
      exact fun x hx => (List.all_eq_true.mp hv) x (List.mem_cons_of_mem a hx)
    cases s with
    | nil =>
      rw [List.cons_append, likeMatch_lit_nil a _ h1 h3]
      rfl
    | cons c cs =>
      rw [List.cons_append, likeMatch_lit_cons a _ c cs h1 h3, if_neg h2,
        ih cs has]
      rfl

theorem any_congr_fun {α : Type} (l : List α) (f g : α → Bool)
    (h : ∀ x, f x = g x) : l.any f = l.any g := by
  induction l with
  | nil => rfl
  | cons x xs ih => simp [List.any_cons, h x, ih]

theorem likeMatch_wrap_contains (v s : List Char)
    (hv : noLikeMeta v = true) :
    likeMatch ('%' :: (v ++ ['%'])) s = chContains s v := by
  rw [likeMatch_pct]
  unfold chContains
  exact any_congr_fun _ _ _ (fun t => likeMatch_lit v t hv)

theorem lowerL_wrap (v : String) :
    lowerL ("%" ++ v ++ "%") = '%' :: (lowerL v ++ ['%']) := by
  have hq : Char.toLower '%' = '%' := by decide
  simp [lowerL, String.toList, String.data_append, hq]

/-- ILIKE with the value wrapped in `%` wildcards coincides with
case-insensitive substring containment whenever the (case-folded) value
holds no LIKE metacharacter. -/
theorem ilike_wrap_eq_specContains (v s : String)
    (hv : noLikeMeta (lowerL v) = true) :
    ilike ("%" ++ v ++ "%") s = specContainsCI s v := by
  unfold ilike specContainsCI
  rw [lowerL_wrap]
  exact likeMatch_wrap_contains (lowerL v) (lowerL s) hv

theorem filterPredicate_single (k vv : String) (r : Row) :
    filterPredicate [(k, vv)] r =
      (match lookupMeta r.metadata k with
       | Option.some v => ilike ("%" ++ vv ++ "%") v
       | Option.none => false) := by
  simp [filterPredicate]

/-- C5 counterexample: with the filter value `%` — a LIKE wildcard —
the generated `ILIKE '%' + value + '%'` pattern matches a metadata
value `abc` that does not contain `%` as a substring at all:
`metadataSearch` returns the row although the claim's case-insensitive
substring-containment reading excludes it. -/
theorem C5_counterexample :
    metadataSearchModel [("k", "%")] 10
        [⟨1, "doc", [("k", "abc")], [], 0⟩] =
      [⟨1, "doc", [("k", "abc")], [], 0⟩] ∧
    specContainsCI "abc" "%" = false := by
  have h1 : likeMatch ['%'] ['a', 'b', 'c'] = true := likeMatch_pct_all _
  have h2 : likeMatch ['%', '%'] ['a', 'b', 'c'] = true :=
    likeMatch_pct_of _ _ h1
  have h3 : likeMatch ['%', '%', '%'] ['a', 'b', 'c'] = true :=
    likeMatch_pct_of _ _ h2
  have hilike : ilike ("%" ++ "%" ++ "%") "abc" = true := by
    unfold ilike
    rw [show lowerL ("%" ++ "%" ++ "%") = ['%', '%', '%'] from rfl,
      show lowerL "abc" = ['a', 'b', 'c'] from rfl]
    exact h3
  have hpred : filterPredicate [("k", "%")]
      ⟨1, "doc", [("k", "abc")], [], 0⟩ = true := by
    rw [filterPredicate_single]
    rw [show lookupMeta [("k", "abc")] "k" = Option.some "abc" from rfl]
    exact hilike
  constructor
  · simp [metadataSearchModel, hpred, List.insertionSort, List.orderedInsert]
  · decide

/-- C5 amended: `metadataSearch` keeps exactly the rows whose metadata
value at each filter key case-insensitively matches the SQL LIKE
pattern formed by wrapping the filter value in `%` wildcards — which
coincides with substring containment precisely when the value holds no
LIKE metacharacter —, a conjunction over all keys with an empty filter
map scanning unconditionally; results come ordered by creation time,
most recent first, capped at the limit; and the statement text is built
from the table name and the filter keys only, while every filter value
and the limit travel as bound parameters. -/
theorem C5_metadata_search_amended
    (filters f2 : List (String × String)) (lim : Nat) (rows : List Row)
    (table : String) (l1 l2 : ℚ) (r : Row) (v s : String) :
    (metadataSearchModel filters lim rows).all (filterPredicate filters) =
      true ∧
    (∀ r0 : Row, filterPredicate [] r0 = true) ∧
    metadataSearchModel [] lim rows =
      (rows.insertionSort createdDesc).take lim ∧
    (metadataSearchModel filters lim rows).Pairwise createdDesc ∧
    ((rows.filter (filterPredicate filters)).length ≤ lim → r ∈ rows →
      filterPredicate filters r = true →
      r ∈ metadataSearchModel filters lim rows) ∧
    (filters.map Prod.fst = f2.map Prod.fst →
      (metadataSearchQuery filters table l1).1 =
        (metadataSearchQuery f2 table l2).1) ∧
    (metadataSearchQuery filters table l1).2 =
      filters.map (fun kv => SqlValue.str ("%" ++ kv.2 ++ "%")) ++
        [SqlValue.num l1] ∧
    (noLikeMeta (lowerL v) = true →
      ilike ("%" ++ v ++ "%") s = specContainsCI s v) := by
  have hsorted := List.sorted_insertionSort createdDesc
    (rows.filter (filterPredicate filters))
  refine ⟨?_, fun r0 => rfl, ?_, ?_, ?_, ?_, rfl,
    fun hv => ilike_wrap_eq_specContains v s hv⟩
  · rw [List.all_eq_true]
    intro x hx
    have hx1 : x ∈ (rows.filter (filterPredicate filters)).insertionSort
        createdDesc := List.mem_of_mem_take hx
    have hx2 := (List.perm_insertionSort createdDesc _).mem_iff.mp hx1
    exact (List.mem_filter.mp hx2).2
  · have hfe : rows.filter (filterPredicate []) = rows :=
      List.filter_eq_self.mpr (fun a _ => rfl)
    unfold metadataSearchModel
    rw [hfe]
  · exact List.Pairwise.sublist (List.take_sublist _ _) hsorted
  · intro hlen hr hp
    unfold metadataSearchModel
    rw [List.take_of_length_le
      (by rw [List.length_insertionSort]; exact hlen)]
    exact (List.perm_insertionSort createdDesc _).mem_iff.mpr
      (List.mem_filter.mpr ⟨hr, hp⟩)
  · intro hk
    show metadataSearchQueryText table (filters.map Prod.fst) =
      metadataSearchQueryText table (f2.map Prod.fst)
    rw [hk]

/-- C5 witness: the amended theorem applied at a concrete filter,
table and row: the wildcard-free value `test` matches by substring
containment, the matching row is returned, and the statement text for
equal key sets coincides. -/
theorem C5_witness :
    noLikeMeta (lowerL "test") = true ∧
    ilike ("%" ++ "test" ++ "%") "a Test b" = specContainsCI "a Test b" "test" ∧
    (⟨1, "doc", [("category", "test")], [], 5⟩ : Row) ∈
      metadataSearchModel [("category", "test")] 10
        [⟨1, "doc", [("category", "test")], [], 5⟩] ∧
    (metadataSearchQuery [("category", "test")] "document_embeddings" 10).1 =
      (metadataSearchQuery [("category", "other")] "document_embeddings" 7).1 := by
  have hilike : ilike ("%" ++ "test" ++ "%") "test" = true := by
    rw [ilike_wrap_eq_specContains "test" "test" (by decide)]
    decide
  have hp : filterPredicate [("category", "test")]
      (⟨1, "doc", [("category", "test")], [], 5⟩ : Row) = true := by
    rw [filterPredicate_single]
    rw [show lookupMeta [("category", "test")] "category" =
      Option.some "test" from rfl]
    exact hilike
  refine ⟨by decide, ?_, ?_, ?_⟩
  · exact (C5_metadata_search_amended [("category", "test")]
      [("category", "other")] 10
      [⟨1, "doc", [("category", "test")], [], 5⟩] "document_embeddings"
      10 7 ⟨1, "doc", [("category", "test")], [], 5⟩ "test"
      "a Test b").2.2.2.2.2.2.2 (by decide)
  · exact (C5_metadata_search_amended [("category", "test")]
      [("category", "other")] 10
      [⟨1, "doc", [("category", "test")], [], 5⟩] "document_embeddings"
      10 7 ⟨1, "doc", [("category", "test")], [], 5⟩ "test"
      "a Test b").2.2.2.2.1
      (le_trans (List.length_filter_le _ _) (by norm_num))
      (List.mem_singleton.mpr rfl) hp
  · exact (C5_metadata_search_amended [("category", "test")]
      [("category", "other")] 10
      [⟨1, "doc", [("category", "test")], [], 5⟩] "document_embeddings"
      10 7 ⟨1, "doc", [("category", "test")], [], 5⟩ "test"
      "a Test b").2.2.2.2.2.1 rfl

end McpPgvector
